import Mathlib

/-!
Verification development for the gator feed-polling and ingestion engine
(`src/internal/config/config.go`).  The Go source is shallowly embedded:
pure helpers become Lean functions, the database and network collaborators
become explicit parameters or oracle values, and the scraping loop becomes
structural recursion over the parsed item list.
-/

namespace Gator

/-! ## Embedding of the Go `time` package layout parsing

`parseDate` (config.go:473-493) calls `time.Parse` with seven fixed layout
strings.  We embed the subset of Go's layout engine that those seven
layouts exercise: the layout chunker (`nextStdChunk`) for the standard
chunks appearing in them, `getnum`, case-insensitive name lookup for
short week-day and month names, numeric and ISO-8601 colon time-zone
offsets, three-to-five letter zone abbreviations (offset 0 for unknown
abbreviations, matching a process whose local zone is UTC), the optional
fractional-second tail after a seconds chunk (consumed and discarded),
and the final month/day range validation.  `parseGMT`'s signed-number
tail and signed zone offsets inside a `MST` chunk are not modelled.
-/

/-- A parsed calendar time, as produced by the embedded `time.Parse`.
`offset` is seconds east of UTC.  Fields default to Go's zero values. -/
structure ParsedTime where
  year : Int := 0
  month : Nat := 1
  day : Nat := 1
  hour : Nat := 0
  minute : Nat := 0
  second : Nat := 0
  offset : Int := 0
deriving DecidableEq, Repr, Inhabited

/-- The standard layout chunks used by the seven layouts in `parseDate`. -/
inductive Chunk where
  | lit (c : Char)
  | weekDay      -- layout "Mon"
  | month        -- layout "Jan"
  | longYear     -- layout "2006"
  | year2        -- layout "06"
  | zeroMonth    -- layout "01"
  | zeroDay      -- layout "02"
  | hourc        -- layout "15"
  | zeroMinute   -- layout "04"
  | zeroSecond   -- layout "05"
  | numTZ        -- layout "-0700"
  | isoColonTZ   -- layout "Z07:00"
  | tzAbbr       -- layout "MST"
deriving DecidableEq, Repr

/-- Embeds Go `nextStdChunk` for the characters appearing in the seven
layout strings of `parseDate`; any other character is a literal. -/
def layoutChunks : List Char → List Chunk
  | [] => []
  | 'M' :: 'o' :: 'n' :: rest => Chunk.weekDay :: layoutChunks rest
  | 'M' :: 'S' :: 'T' :: rest => Chunk.tzAbbr :: layoutChunks rest
  | 'J' :: 'a' :: 'n' :: rest => Chunk.month :: layoutChunks rest
  | '2' :: '0' :: '0' :: '6' :: rest => Chunk.longYear :: layoutChunks rest
  | '1' :: '5' :: rest => Chunk.hourc :: layoutChunks rest
  | '0' :: '1' :: rest => Chunk.zeroMonth :: layoutChunks rest
  | '0' :: '2' :: rest => Chunk.zeroDay :: layoutChunks rest
  | '0' :: '4' :: rest => Chunk.zeroMinute :: layoutChunks rest
  | '0' :: '5' :: rest => Chunk.zeroSecond :: layoutChunks rest
  | '0' :: '6' :: rest => Chunk.year2 :: layoutChunks rest
  | '-' :: '0' :: '7' :: '0' :: '0' :: rest => Chunk.numTZ :: layoutChunks rest
  | 'Z' :: '0' :: '7' :: ':' :: '0' :: '0' :: rest => Chunk.isoColonTZ :: layoutChunks rest
  | c :: rest => Chunk.lit c :: layoutChunks rest

/-- ASCII lower-casing, as used by Go's case-insensitive `match`. -/
def lowerASCII (c : Char) : Char :=
  if 'A' ≤ c ∧ c ≤ 'Z' then Char.ofNat (c.toNat + 32) else c

/-- Case-insensitive comparison of a name against a prefix of the value
(Go `match`). Returns the remaining value on success. -/
def matchName : List Char → List Char → Option (List Char)
  | [], v => some v
  | _ :: _, [] => none
  | n :: ns, v :: vs =>
    if lowerASCII n = lowerASCII v then matchName ns vs else none

/-- Go `lookup`: first name in the table matching a prefix of the value,
case-insensitively; returns its index and the remaining value. -/
def lookupName (names : List String) (v : List Char) : Option (Nat × List Char) :=
  go 0 names
where
  go (i : Nat) : List String → Option (Nat × List Char)
    | [] => none
    | n :: ns =>
      match matchName n.data v with
      | some rest => some (i, rest)
      | none => go (i + 1) ns

def shortDayNames : List String := ["Sun", "Mon", "Tue", "Wed", "Thu", "Fri", "Sat"]

def shortMonthNames : List String :=
  ["Jan", "Feb", "Mar", "Apr", "May", "Jun", "Jul", "Aug", "Sep", "Oct", "Nov", "Dec"]

def digitVal (c : Char) : Nat := c.toNat - '0'.toNat

/-- Go `getnum`: a one- or two-digit number; with `fixed` set, exactly two
digits are required. -/
def getnum (fixed : Bool) : List Char → Option (Nat × List Char)
  | [] => none
  | [c] => if c.isDigit ∧ ¬ fixed then some (digitVal c, []) else none
  | c1 :: c2 :: rest =>
    if c1.isDigit then
      if c2.isDigit then some (digitVal c1 * 10 + digitVal c2, rest)
      else if fixed then none
      else some (digitVal c1, c2 :: rest)
    else none

/-- Four-digit year (layout "2006"). -/
def getnum4 : List Char → Option (Nat × List Char)
  | a :: b :: c :: d :: rest =>
    if a.isDigit ∧ b.isDigit ∧ c.isDigit ∧ d.isDigit then
      some (((digitVal a * 10 + digitVal b) * 10 + digitVal c) * 10 + digitVal d, rest)
    else none
  | _ => none

/-- Consume an optional fractional-seconds tail `[.,]digits` after a
seconds chunk (Go's special case in the `Parse` loop); the fractional
value itself is discarded since none of the layouts keeps nanoseconds. -/
def dropFraction : List Char → List Char
  | c :: d :: rest =>
    if (c = '.' ∨ c = ',') ∧ d.isDigit then (d :: rest).dropWhile Char.isDigit
    else c :: d :: rest
  | v => v

/-- Length of a zone abbreviation at the front of the value, embedding Go
`parseTimeZone` (without the `GMT±n` and signed-offset extensions). -/
def tzAbbrLen (v : List Char) : Option Nat :=
  if v.length < 3 then none
  else if ['C', 'h', 'S', 'T'].isPrefixOf v ∨ ['M', 'e', 'S', 'T'].isPrefixOf v then some 4
  else if ['G', 'M', 'T'].isPrefixOf v then some 3
  else
    let nUpper := (v.take 6).takeWhile (fun c => 'A' ≤ c ∧ c ≤ 'Z') |>.length
    if nUpper = 5 then (if v.get? 4 = some 'T' then some 5 else none)
    else if nUpper = 4 then
      (if v.get? 3 = some 'T' ∨ ['W', 'I', 'T', 'A'].isPrefixOf v then some 4 else none)
    else if nUpper = 3 then some 3
    else none

/-- One step of the embedded `time.Parse` loop: consume one layout chunk
from the value, updating the partially parsed time. -/
def stepChunk (ch : Chunk) (v : List Char) (t : ParsedTime) :
    Option (List Char × ParsedTime) :=
  match ch with
  | .lit c =>
    match v with
    | c' :: rest => if c' = c then some (rest, t) else none
    | [] => none
  | .weekDay =>
    match lookupName shortDayNames v with
    | some (_, rest) => some (rest, t)   -- parsed week day is ignored by Go
    | none => none
  | .month =>
    match lookupName shortMonthNames v with
    | some (i, rest) => some (rest, { t with month := i + 1 })
    | none => none
  | .longYear =>
    match getnum4 v with
    | some (y, rest) => some (rest, { t with year := (y : Int) })
    | none => none
  | .year2 =>
    match getnum true v with
    | some (y, rest) =>
      some (rest, { t with year := if y ≥ 69 then (y : Int) + 1900 else (y : Int) + 2000 })
    | none => none
  | .zeroMonth =>
    match getnum true v with
    | some (m, rest) => some (rest, { t with month := m })
    | none => none
  | .zeroDay =>
    match getnum true v with
    | some (d, rest) => some (rest, { t with day := d })
    | none => none
  | .hourc =>
    match getnum false v with
    | some (h, rest) => if h < 24 then some (rest, { t with hour := h }) else none
    | none => none
  | .zeroMinute =>
    match getnum true v with
    | some (m, rest) => if m < 60 then some (rest, { t with minute := m }) else none
    | none => none
  | .zeroSecond =>
    match getnum true v with
    | some (s, rest) =>
      if s < 60 then some (dropFraction rest, { t with second := s }) else none
    | none => none
  | .numTZ =>
    match v with
    | sg :: h1 :: h2 :: m1 :: m2 :: rest =>
      if (sg = '+' ∨ sg = '-') ∧ h1.isDigit ∧ h2.isDigit ∧ m1.isDigit ∧ m2.isDigit then
        let hr := digitVal h1 * 10 + digitVal h2
        let mm := digitVal m1 * 10 + digitVal m2
        let off : Int := ((hr * 60 + mm) * 60 : Nat)
        some (rest, { t with offset := if sg = '-' then -off else off })
      else none
    | _ => none
  | .isoColonTZ =>
    match v with
    | 'Z' :: rest => some (rest, { t with offset := 0 })
    | sg :: h1 :: h2 :: ':' :: m1 :: m2 :: rest =>
      if (sg = '+' ∨ sg = '-') ∧ h1.isDigit ∧ h2.isDigit ∧ m1.isDigit ∧ m2.isDigit then
        let hr := digitVal h1 * 10 + digitVal h2
        let mm := digitVal m1 * 10 + digitVal m2
        let off : Int := ((hr * 60 + mm) * 60 : Nat)
        some (rest, { t with offset := if sg = '-' then -off else off })
      else none
    | _ => none
  | .tzAbbr =>
    if ['U', 'T', 'C'].isPrefixOf v then some (v.drop 3, { t with offset := 0 })
    else
      match tzAbbrLen v with
      | some n => some (v.drop n, { t with offset := 0 })
      | none => none

/-- Run the chunk list over the value; the whole value must be consumed
(Go reports extra text as an error). -/
def runChunks : List Chunk → List Char → ParsedTime → Option ParsedTime
  | [], [], t => some t
  | [], _ :: _, _ => none
  | ch :: chs, v, t =>
    match stepChunk ch v t with
    | some (v', t') => runChunks chs v' t'
    | none => none

/-- Is `y` a leap year (Go `isLeap`). -/
def isLeap (y : Int) : Bool := y % 4 == 0 && (y % 100 != 0 || y % 400 == 0)

/-- Days in a month (Go `daysIn`). -/
def daysIn (m : Nat) (y : Int) : Nat :=
  if m = 2 then (if isLeap y then 29 else 28)
  else if m = 4 ∨ m = 6 ∨ m = 9 ∨ m = 11 then 30
  else 31

/-- Embedded `time.Parse layout value`: chunk the layout, run it over the
value, then validate the month and day ranges exactly as Go does after
its parsing loop. -/
def goTimeParse (layout value : String) : Option ParsedTime :=
  match runChunks (layoutChunks layout.data) value.data {} with
  | none => none
  | some t =>
    if 1 ≤ t.month ∧ t.month ≤ 12 ∧ 1 ≤ t.day ∧ t.day ≤ daysIn t.month t.year then some t
    else none

/-- Civil days since the Unix epoch (standard era-based calendar
arithmetic; all intermediate divisions are on non-negative values for the
years produced by the embedded layouts). -/
def daysFromCivil (y : Int) (m d : Nat) : Int :=
  let y' : Int := if m ≤ 2 then y - 1 else y
  let era : Int := (if 0 ≤ y' then y' else y' - 399) / 400
  let yoe : Int := y' - era * 400
  let mp : Nat := if m > 2 then m - 3 else m + 9
  let doy : Int := ((153 * mp + 2) / 5 + d - 1 : Nat)
  let doe : Int := yoe * 365 + yoe / 4 - yoe / 100 + doy
  era * 146097 + doe - 719468

/-- Absolute time as Unix seconds: the instant denoted by the parsed
calendar fields together with their zone offset. -/
def ParsedTime.toUnix (t : ParsedTime) : Int :=
  daysFromCivil t.year t.month t.day * 86400
    + (t.hour * 3600 + t.minute * 60 + t.second : Nat) - t.offset

/-! ## `parseDate` (config.go:473-493) -/

/-- The fixed, ordered layout list of `parseDate` (config.go:475-483):
RFC1123Z, RFC1123, RFC822Z, RFC822, then the three literal layouts. -/
def formats : List String :=
  ["Mon, 02 Jan 2006 15:04:05 -0700",
   "Mon, 02 Jan 2006 15:04:05 MST",
   "02 Jan 06 15:04 -0700",
   "02 Jan 06 15:04 MST",
   "2006-01-02T15:04:05Z07:00",
   "2006-01-02 15:04:05",
   "Mon, 02 Jan 2006 15:04:05 -0700"]

/-- The `for` loop of `parseDate`: try each layout in order, return the
first success; after the loop, fail. -/
def parseDateAux (dateStr : String) : List String → Except String ParsedTime
  | [] => .error ("couldn't parse date: " ++ dateStr)
  | f :: rest =>
    match goTimeParse f dateStr with
    | some t => .ok t
    | none => parseDateAux dateStr rest

/-- `parseDate` (config.go:473-493). -/
def parseDate (dateStr : String) : Except String ParsedTime :=
  parseDateAux dateStr formats

/-! ## RSS document model (the `database.RSSFeed` struct decoded by
`xml.Unmarshal` in `fetchFeed`, config.go:224-241) -/

structure RSSItem where
  title : String
  link : String
  description : String
  pubDate : String
deriving DecidableEq, Repr

structure RSSChannel where
  title : String
  description : String
  item : List RSSItem
deriving DecidableEq, Repr

structure RSSFeed where
  channel : RSSChannel
deriving DecidableEq, Repr

/-- Embeds the subset of Go `html.UnescapeString` for the named
character entities `amp`, `lt`, `gt`, `quot` and `apos` (each with its
terminating semicolon); other text is copied through unchanged. -/
def htmlUnescapeAux : List Char → List Char
  | [] => []
  | '&' :: 'a' :: 'm' :: 'p' :: ';' :: rest => '&' :: htmlUnescapeAux rest
  | '&' :: 'l' :: 't' :: ';' :: rest => '<' :: htmlUnescapeAux rest
  | '&' :: 'g' :: 't' :: ';' :: rest => '>' :: htmlUnescapeAux rest
  | '&' :: 'q' :: 'u' :: 'o' :: 't' :: ';' :: rest => '"' :: htmlUnescapeAux rest
  | '&' :: 'a' :: 'p' :: 'o' :: 's' :: ';' :: rest => Char.ofNat 39 :: htmlUnescapeAux rest
  | c :: rest => c :: htmlUnescapeAux rest

def htmlUnescape (s : String) : String := ⟨htmlUnescapeAux s.data⟩

/-- The entity-decoding pass of `fetchFeed` (config.go:232-238): decode
HTML entities in the channel title and description and in each item's
title and description. -/
def unescapeFeed (f : RSSFeed) : RSSFeed :=
  { channel :=
    { title := htmlUnescape f.channel.title
      description := htmlUnescape f.channel.description
      item := f.channel.item.map fun it =>
        { it with title := htmlUnescape it.title
                  description := htmlUnescape it.description } } }

/-! ## HTTP request model for `fetchFeed` (config.go:202-221) -/

/-- A Go `context.Context`, reduced to its deadline. -/
structure GoContext where
  deadline : Option Nat
deriving DecidableEq, Repr

/-- `context.Background()` carries no deadline. -/
def contextBackground : GoContext := { deadline := none }

structure HTTPRequest where
  method : String
  url : String
  headers : List (String × String)
deriving DecidableEq, Repr

/-- A Go `http.Client`, reduced to its `Timeout` field (nanoseconds;
Go's documented zero value means no timeout at all). -/
structure HTTPClient where
  timeoutNanos : Nat
deriving DecidableEq, Repr

/-- The client built by `fetchFeed` (config.go:211): `&http.Client{}`,
the zero value, so `Timeout` is 0. -/
def fetchFeedClient : HTTPClient := { timeoutNanos := 0 }

/-- The requests issued by one call to `fetchFeed` for a source URL
(config.go:203-212): exactly one GET carrying the `User-Agent: gator`
header, executed by `fetchFeedClient` under the caller's context. -/
def fetchFeedRequests (ctx : GoContext) (feedURL : String) :
    List (HTTPRequest × HTTPClient × GoContext) :=
  [({ method := "GET", url := feedURL, headers := [("User-Agent", "gator")] },
    fetchFeedClient, ctx)]

/-- The context `scrapeFeeds` hands to `fetchFeed` (config.go:430):
`context.Background()`. -/
def scrapeFetchContext : GoContext := contextBackground

/-- A request execution has a bounded timeout budget iff the client sets
a positive timeout or the context carries a deadline.  (This definition
follows the spec's words, for comparison with the code's choices.) -/
def hasBoundedTimeout (c : HTTPClient) (ctx : GoContext) : Prop :=
  0 < c.timeoutNanos ∨ ctx.deadline.isSome = true

instance (c : HTTPClient) (ctx : GoContext) : Decidable (hasBoundedTimeout c ctx) := by
  unfold hasBoundedTimeout; infer_instance

/-! ## Store model and `scrapeFeeds` (config.go:416-471) -/

/-- A Go `sql.NullString`, as built for the post description
(config.go:453-456). -/
structure NullString where
  string : String
  valid : Bool
deriving DecidableEq, Repr

/-- A stored post row, restricted to the fields `scrapeFeeds` sets that
the ingestion properties talk about. -/
structure Post where
  title : String
  url : String
  description : NullString
  publishedAt : ParsedTime
  feedID : Nat
deriving DecidableEq, Repr

/-- A feed row, restricted to the fields `scrapeFeeds` reads. -/
structure Feed where
  id : Nat
  name : String
  url : String
deriving DecidableEq, Repr

/-- The substring `scrapeFeeds` looks for to classify an insertion error
as a duplicate (config.go:462). -/
def dupKeyMsg : String := "duplicate key value violates unique constraint"

/-- Go `strings.Contains`, over the character lists of the strings. -/
def goContainsAux (sub : List Char) (l : List Char) : Bool :=
  sub.isPrefixOf l ||
    match l with
    | [] => false
    | _ :: rest => goContainsAux sub rest

/-- Go `strings.Contains s sub`. -/
def goContains (s sub : String) : Bool := goContainsAux sub.data s.data

/-- The `CreatePostParams` record built for one item (config.go:447-459),
restricted to the modelled fields: title from the item title, url from
the item link, description a `NullString` that is valid exactly when the
item description is non-empty, the parsed publication date, and the
feed's id. -/
def mkPost (feedID : Nat) (item : RSSItem) (publishedAt : ParsedTime) : Post :=
  { title := item.title
    url := item.link
    description := { string := item.description, valid := item.description != "" }
    publishedAt := publishedAt
    feedID := feedID }

/-- The type of the store's insert operation (`s.DB.CreatePost`): given
the current rows and the new row, either the updated rows or an error
message. -/
def InsertFn : Type := List Post → Post → Except String (List Post)

/-- Does some stored row already carry this link URL? -/
def hasUrl (db : List Post) (u : String) : Bool := db.any fun q => q.url == u

/-- Modelled from the spec: the store's `insert_entry` operation
(`s.DB.CreatePost`), whose SQL definition and generated data-access code
are not under `src/`.  Per the spec, uniqueness is enforced on the link
URL and a violating insertion is rejected with a uniqueness-violation
error; the error text follows the persistence driver's documented
duplicate-key message shape checked at config.go:462. -/
def createPost : InsertFn := fun db p =>
  if hasUrl db p.url then
    .error ("pq: duplicate key value violates unique constraint (posts url)")
  else .ok (db ++ [p])

/-- The per-item loop body plus loop of `scrapeFeeds`
(config.go:438-468), with the store's insert operation as an explicit
collaborator: parse the item's date (log a warning and continue on
failure), build the post, insert it (silently skip duplicate-key errors,
log any other insert error, continue either way).  Returns the updated
rows and the lines printed. -/
def storeItems (ins : InsertFn) (feedID : Nat) (db : List Post) (log : List String) :
    List RSSItem → List Post × List String
  | [] => (db, log)
  | item :: rest =>
    match parseDate item.pubDate with
    | .error e =>
      storeItems ins feedID db
        (log ++ ["couldn't parse date " ++ item.pubDate ++ ": " ++ e]) rest
    | .ok publishedAt =>
      match ins db (mkPost feedID item publishedAt) with
      | .ok db' => storeItems ins feedID db' log rest
      | .error e =>
        if goContains e dupKeyMsg then storeItems ins feedID db log rest
        else storeItems ins feedID db (log ++ ["couldn't create post: " ++ e]) rest

/-- The collaborator outcomes one `scrapeFeeds` call observes: the row
returned by `GetNextFeedToFetch`, the outcome of `MarkFeedFetched`, and
the outcome of `fetchFeed` (fetch plus parse). -/
structure ScrapeEnv where
  nextFeed : Except String Feed
  markResult : Except String Unit
  fetchResult : Except String RSSFeed

/-- The store-visible state one `scrapeFeeds` call starts from and
produces: the stored rows, the ids marked fetched (in order), and the
lines printed. -/
structure ScrapeState where
  posts : List Post
  markedIDs : List Nat
  log : List String
deriving DecidableEq, Repr

/-- `scrapeFeeds` (config.go:416-471): get the next feed (abort on
error), mark it fetched (abort on error; the watermark is advanced
here, before the fetch), fetch and parse the feed (abort on error, the
mark already applied), then store every item via `storeItems`; per-item
failures never produce an error return. -/
def scrapeFeeds (ins : InsertFn) (env : ScrapeEnv) (st : ScrapeState) :
    ScrapeState × Except String Unit :=
  match env.nextFeed with
  | .error e => (st, .error ("couldn't get next feed to fetch: " ++ e))
  | .ok feed =>
    match env.markResult with
    | .error e => (st, .error ("couldn't mark feed as fetched: " ++ e))
    | .ok _ =>
      let st1 : ScrapeState := { st with markedIDs := st.markedIDs ++ [feed.id] }
      match env.fetchResult with
      | .error e => (st1, .error ("couldn't fetch feed " ++ feed.name ++ ": " ++ e))
      | .ok rss =>
        let st2 : ScrapeState := { st1 with
          log := st1.log ++ ["Feed " ++ feed.name ++ " collected, "
            ++ toString rss.channel.item.length ++ " posts found"] }
        let res := storeItems ins feed.id st2.posts st2.log rss.channel.item
        ({ st2 with posts := res.1, log := res.2 }, .ok ())

/-! ## The scheduler loop of `AggHandler` (config.go:392-414)

The `for ; ; <-ticker.C` loop runs its body once immediately and then
once after every tick, forever.  We embed its trace: `aggTrace outcome n`
is the event sequence after `n` loop iterations, where `outcome i` is
the result of the `i`-th `scrapeFeeds` call.  An error outcome is
printed and the loop continues. -/

inductive AggEvent where
  /-- the `i`-th `scrapeFeeds` call runs -/
  | scrape (i : Nat)
  /-- an error line is printed (config.go:411) -/
  | logError (msg : String)
  /-- the loop blocks on `<-ticker.C` until the next tick -/
  | waitTick
deriving DecidableEq, Repr

/-- One loop iteration: run `scrapeFeeds`, print its error if any. -/
def aggCycle (outcome : Nat → Except String Unit) (i : Nat) : List AggEvent :=
  AggEvent.scrape i ::
    match outcome i with
    | .ok _ => []
    | .error e => [AggEvent.logError ("Error scraping feeds: " ++ e)]

/-- The trace of the first `n` iterations of the `AggHandler` loop: the
body runs before the first tick wait, and every later iteration first
blocks on a tick. -/
def aggTrace (outcome : Nat → Except String Unit) : Nat → List AggEvent
  | 0 => []
  | n + 1 =>
    aggTrace outcome n
      ++ (if n = 0 then [] else [AggEvent.waitTick])
      ++ aggCycle outcome n

/-- Number of `scrapeFeeds` executions in a trace. -/
def scrapeCount (tr : List AggEvent) : Nat :=
  tr.countP fun e => match e with | .scrape _ => true | _ => false

/-- Number of tick waits in a trace. -/
def tickCount (tr : List AggEvent) : Nat :=
  tr.countP fun e => match e with | .waitTick => true | _ => false

/-! ## Derived store predicates and concrete example data -/

/-- No two stored rows share a link URL. -/
def urlsNodupB : List Post → Bool
  | [] => true
  | p :: rest => (!hasUrl rest p.url) && urlsNodupB rest

/-- An insert collaborator that always fails with a fixed message. -/
def failIns (msg : String) : InsertFn := fun _ _ => .error msg

/-- A cycle outcome sequence in which every `scrapeFeeds` call fails. -/
def failingOutcome : Nat → Except String Unit := fun _ => .error "net down"

/-- A publication date in the first supported layout. -/
def goodDate : String := "Mon, 02 Jan 2006 15:04:05 -0700"

/-- The `ParsedTime` denoted by `goodDate`. -/
def exampleTime : ParsedTime := ⟨2006, 1, 2, 15, 4, 5, -25200⟩

/-- The `n`-th item of the worked documents. -/
def exampleItem (n : Nat) (d : String) : RSSItem :=
  { title := "Post " ++ toString n
    link := "http://x/" ++ toString n
    description := "d" ++ toString n
    pubDate := d }

/-- A store that already holds an entry whose link duplicates item 4
(stored earlier from a different source, feed id 9). -/
def exampleDB : List Post := [mkPost 9 (exampleItem 4 goodDate) exampleTime]

/-- The five-item document of the fault-isolation scenario: item 3 has
an unparseable date and item 4 duplicates a stored link. -/
def exampleItems : List RSSItem :=
  [exampleItem 1 goodDate, exampleItem 2 goodDate, exampleItem 3 "yesterday",
   exampleItem 4 goodDate, exampleItem 5 goodDate]

def exampleFeed : Feed := { id := 7, name := "ex", url := "http://x/rss" }

def exampleRss : RSSFeed :=
  { channel := { title := "c", description := "d", item := exampleItems } }

def exampleState : ScrapeState := { posts := exampleDB, markedIDs := [], log := [] }

/-! ## Supporting lemmas -/

theorem parseDateAux_ok_iff (s : String) (t : ParsedTime) (fs : List String) :
    parseDateAux s fs = .ok t ↔ fs.findSome? (fun f => goTimeParse f s) = some t := by
  induction fs with
  | nil => simp [parseDateAux, List.findSome?]
  | cons f fs ih =>
    simp only [parseDateAux, List.findSome?]
    cases goTimeParse f s with
    | some u => simp
    | none => simpa using ih

theorem parseDateAux_error_iff (s : String) (fs : List String) :
    (∃ e, parseDateAux s fs = .error e)
      ↔ fs.all (fun f => (goTimeParse f s).isNone) = true := by
  induction fs with
  | nil => simp [parseDateAux]
  | cons f fs ih =>
    simp only [parseDateAux, List.all_cons, Bool.and_eq_true]
    cases h : goTimeParse f s with
    | some u => simp
    | none => simpa using ih

theorem hasUrl_append (db db' : List Post) (u : String) :
    hasUrl (db ++ db') u = (hasUrl db u || hasUrl db' u) := by
  simp [hasUrl]

/-- The duplicate error produced by the modelled insert matches the
substring checked at config.go:462. -/
theorem dup_err_contains :
    goContains "pq: duplicate key value violates unique constraint (posts url)" dupKeyMsg
      = true := rfl

/-- Stored link URLs survive the rest of an ingestion pass: `storeItems`
never removes rows. -/
theorem storeItems_hasUrl_mono (fid : Nat) (u : String) (items : List RSSItem) :
    ∀ (db : List Post) (log : List String), hasUrl db u = true →
      hasUrl (storeItems createPost fid db log items).1 u = true := by
  induction items with
  | nil => intro db log h; simpa [storeItems] using h
  | cons item rest ih =>
    intro db log h
    simp only [storeItems]
    cases hpd : parseDate item.pubDate with
    | error e => exact ih _ _ h
    | ok t =>
      simp only [createPost]
      cases hdup : hasUrl db (mkPost fid item t).url with
      | true =>
        simp only [hdup, if_true, dup_err_contains]
        exact ih _ _ h
      | false =>
        simp only [hdup, Bool.false_eq_true, if_false]
        exact ih _ _ (by simp [hasUrl_append, h])

/-- After an ingestion pass, every item whose date parsed has its link
URL present in the store (it was either inserted or already there). -/
theorem storeItems_link_present (fid : Nat) (items : List RSSItem) :
    ∀ (db : List Post) (log : List String) (item : RSSItem) (t : ParsedTime),
      item ∈ items → parseDate item.pubDate = .ok t →
      hasUrl (storeItems createPost fid db log items).1 item.link = true := by
  induction items with
  | nil => intro _ _ _ _ hm _; cases hm
  | cons a rest ih =>
    intro db log item t hm hok
    rcases List.mem_cons.mp hm with rfl | hm'
    · simp only [storeItems, hok]
      simp only [createPost]
      cases hdup : hasUrl db (mkPost fid item t).url with
      | true =>
        simp only [hdup, if_true, dup_err_contains]
        exact storeItems_hasUrl_mono fid item.link rest db log (by simpa [mkPost] using hdup)
      | false =>
        simp only [hdup, Bool.false_eq_true, if_false]
        exact storeItems_hasUrl_mono fid item.link rest _ log
          (by simp [hasUrl_append, hasUrl, mkPost])
    · simp only [storeItems]
      cases hpd : parseDate a.pubDate with
      | error e => exact ih _ _ _ _ hm' hok
      | ok ta =>
        simp only [createPost]
        cases hdup : hasUrl db (mkPost fid a ta).url with
        | true =>
          simp only [hdup, if_true, dup_err_contains]
          exact ih _ _ _ _ hm' hok
        | false =>
          simp only [hdup, Bool.false_eq_true, if_false]
          exact ih _ _ _ _ hm' hok

/-- If every item with a parseable date already has its link URL in the
store, an ingestion pass stores nothing: every insertion is rejected as
a duplicate and skipped. -/
theorem storeItems_fixed (fid : Nat) (items : List RSSItem) :
    ∀ (db : List Post) (log : List String),
      (∀ item ∈ items, ∀ t, parseDate item.pubDate = .ok t → hasUrl db item.link = true) →
      (storeItems createPost fid db log items).1 = db := by
  induction items with
  | nil => intro db log _; simp [storeItems]
  | cons a rest ih =>
    intro db log hall
    simp only [storeItems]
    cases hpd : parseDate a.pubDate with
    | error e => exact ih _ _ fun it hm t ht => hall it (List.mem_cons_of_mem _ hm) t ht
    | ok t =>
      have ha : hasUrl db (mkPost fid a t).url = true := by
        simpa [mkPost] using hall a (List.mem_cons_self _ _) t hpd
      simp only [createPost, ha, if_true, dup_err_contains]
      exact ih _ _ fun it hm t' ht' => hall it (List.mem_cons_of_mem _ hm) t' ht'

/-- A second ingestion pass over the same item list stores nothing new. -/
theorem storeItems_idem (fid : Nat) (items : List RSSItem) (db : List Post)
    (log log' : List String) :
    (storeItems createPost fid (storeItems createPost fid db log items).1 log' items).1
      = (storeItems createPost fid db log items).1 :=
  storeItems_fixed fid items _ log' fun it hm t ht =>
    storeItems_link_present fid items db log it t hm ht

theorem hasUrl_eq_false_iff (db : List Post) (u : String) :
    hasUrl db u = false ↔ ∀ q ∈ db, q.url ≠ u := by
  simp [hasUrl]

theorem urlsNodupB_iff_pairwise (db : List Post) :
    urlsNodupB db = true ↔ db.Pairwise (fun a b => a.url ≠ b.url) := by
  induction db with
  | nil => simp [urlsNodupB]
  | cons p rest ih =>
    simp only [urlsNodupB, Bool.and_eq_true, Bool.not_eq_true', List.pairwise_cons, ih,
      hasUrl_eq_false_iff]
    constructor
    · rintro ⟨h1, h2⟩; exact ⟨fun q hq => (h1 q hq).symm, h2⟩
    · rintro ⟨h1, h2⟩; exact ⟨fun q hq => (h1 q hq).symm, h2⟩

theorem urlsNodupB_append_singleton (p : Post) (db : List Post)
    (hnd : urlsNodupB db = true) (hnu : hasUrl db p.url = false) :
    urlsNodupB (db ++ [p]) = true := by
  rw [urlsNodupB_iff_pairwise] at hnd ⊢
  rw [List.pairwise_append]
  refine ⟨hnd, by simp, ?_⟩
  intro a ha b hb
  rw [List.mem_singleton] at hb
  rw [hb]
  exact (hasUrl_eq_false_iff db p.url).mp hnu a ha

/-- An ingestion pass preserves link-URL uniqueness of the store. -/
theorem storeItems_nodup (fid : Nat) (items : List RSSItem) :
    ∀ (db : List Post) (log : List String), urlsNodupB db = true →
      urlsNodupB (storeItems createPost fid db log items).1 = true := by
  induction items with
  | nil => intro db log h; simpa [storeItems] using h
  | cons a rest ih =>
    intro db log h
    simp only [storeItems]
    cases hpd : parseDate a.pubDate with
    | error e => exact ih _ _ h
    | ok t =>
      simp only [createPost]
      cases hdup : hasUrl db (mkPost fid a t).url with
      | true =>
        simp only [hdup, if_true, dup_err_contains]
        exact ih _ _ h
      | false =>
        simp only [hdup, Bool.false_eq_true, if_false]
        exact ih _ _ (urlsNodupB_append_singleton _ _ h hdup)

/-- An ingestion pass only appends rows: nothing is updated or deleted. -/
theorem storeItems_append_only (fid : Nat) (items : List RSSItem) :
    ∀ (db : List Post) (log : List String),
      ∃ new, (storeItems createPost fid db log items).1 = db ++ new := by
  induction items with
  | nil => intro db log; exact ⟨[], by simp [storeItems]⟩
  | cons a rest ih =>
    intro db log
    simp only [storeItems]
    cases hpd : parseDate a.pubDate with
    | error e => exact ih _ _
    | ok t =>
      simp only [createPost]
      cases hdup : hasUrl db (mkPost fid a t).url with
      | true =>
        simp only [hdup, if_true, dup_err_contains]
        exact ih _ _
      | false =>
        simp only [hdup, Bool.false_eq_true, if_false]
        obtain ⟨new, hnew⟩ := ih (db ++ [mkPost fid a t]) log
        exact ⟨mkPost fid a t :: new, by simpa using hnew⟩

theorem head?_append_of_head? {α : Type} (l l' : List α) (a : α)
    (h : l.head? = some a) : (l ++ l').head? = some a := by
  cases l with
  | nil => cases h
  | cons x xs => simpa using h

theorem scrapeCount_append (l l' : List AggEvent) :
    scrapeCount (l ++ l') = scrapeCount l + scrapeCount l' := by
  simp [scrapeCount, List.countP_append]

theorem tickCount_append (l l' : List AggEvent) :
    tickCount (l ++ l') = tickCount l + tickCount l' := by
  simp [tickCount, List.countP_append]

theorem scrapeCount_aggCycle (outcome : Nat → Except String Unit) (i : Nat) :
    scrapeCount (aggCycle outcome i) = 1 := by
  cases h : outcome i <;> simp [aggCycle, scrapeCount, h, List.countP_cons]

theorem tickCount_aggCycle (outcome : Nat → Except String Unit) (i : Nat) :
    tickCount (aggCycle outcome i) = 0 := by
  cases h : outcome i <;> simp [aggCycle, tickCount, h, List.countP_cons]

/-! ## Claim theorems -/

/-- C1: running the ingestion pass (`scrapeFeeds`) a second time against
the same fetched document leaves the stored rows — and hence their
count — unchanged: every item's link URL already exists in the store
after the first pass, so every insertion is rejected as a duplicate and
skipped. -/
theorem c1_ingest_idempotent (feed : Feed) (rss : RSSFeed) (st : ScrapeState) :
    (scrapeFeeds createPost ⟨.ok feed, .ok (), .ok rss⟩
        (scrapeFeeds createPost ⟨.ok feed, .ok (), .ok rss⟩ st).1).1.posts
      = (scrapeFeeds createPost ⟨.ok feed, .ok (), .ok rss⟩ st).1.posts
    ∧ (scrapeFeeds createPost ⟨.ok feed, .ok (), .ok rss⟩
        (scrapeFeeds createPost ⟨.ok feed, .ok (), .ok rss⟩ st).1).1.posts.length
      = (scrapeFeeds createPost ⟨.ok feed, .ok (), .ok rss⟩ st).1.posts.length := by
  constructor
  · simp only [scrapeFeeds]
    exact storeItems_idem _ _ _ _ _
  · simp only [scrapeFeeds]
    rw [storeItems_idem]

/-- C2: per-item failures never abort a cycle.  An item whose date
parses under no known format is skipped with a logged warning; an item
rejected as a duplicate is skipped silently; any other store error is
logged — and in every case processing continues with the remaining
items and `scrapeFeeds` reports no fatal error.  Concretely, for the
five-item document where item 3 has an unparseable date and item 4
duplicates a stored link, exactly items 1, 2 and 5 are stored. -/
theorem c2_fault_isolation :
    (∀ (ins : InsertFn) (feed : Feed) (rss : RSSFeed) (st : ScrapeState),
        (scrapeFeeds ins ⟨.ok feed, .ok (), .ok rss⟩ st).2 = .ok ())
  ∧ (∀ (ins : InsertFn) (fid : Nat) (db : List Post) (log : List String)
        (item : RSSItem) (rest : List RSSItem) (e : String),
        parseDate item.pubDate = .error e →
        storeItems ins fid db log (item :: rest)
          = storeItems ins fid db
              (log ++ ["couldn't parse date " ++ item.pubDate ++ ": " ++ e]) rest)
  ∧ (∀ (ins : InsertFn) (fid : Nat) (db : List Post) (log : List String)
        (item : RSSItem) (rest : List RSSItem) (t : ParsedTime) (e : String),
        parseDate item.pubDate = .ok t →
        ins db (mkPost fid item t) = .error e →
        goContains e dupKeyMsg = true →
        storeItems ins fid db log (item :: rest) = storeItems ins fid db log rest)
  ∧ (∀ (ins : InsertFn) (fid : Nat) (db : List Post) (log : List String)
        (item : RSSItem) (rest : List RSSItem) (t : ParsedTime) (e : String),
        parseDate item.pubDate = .ok t →
        ins db (mkPost fid item t) = .error e →
        goContains e dupKeyMsg = false →
        storeItems ins fid db log (item :: rest)
          = storeItems ins fid db (log ++ ["couldn't create post: " ++ e]) rest)
  ∧ storeItems createPost exampleFeed.id exampleDB [] exampleItems
      = (exampleDB ++ [mkPost 7 (exampleItem 1 goodDate) exampleTime,
                       mkPost 7 (exampleItem 2 goodDate) exampleTime,
                       mkPost 7 (exampleItem 5 goodDate) exampleTime],
         ["couldn't parse date yesterday: couldn't parse date: yesterday"])
  ∧ (scrapeFeeds createPost ⟨.ok exampleFeed, .ok (), .ok exampleRss⟩ exampleState).2
      = .ok () := by
  refine ⟨fun ins feed rss st => rfl, ?_, ?_, ?_, rfl, rfl⟩
  · intro ins fid db log item rest e h
    simp only [storeItems, h]
  · intro ins fid db log item rest t e hok hins hdup
    simp only [storeItems, hok, hins, hdup, if_true]
  · intro ins fid db log item rest t e hok hins hdup
    simp only [storeItems, hok, hins, hdup, Bool.false_eq_true, if_false]

/-- C2 witness: the skip equations discharged at concrete inputs — a
bad date is skipped with a warning, a duplicate-key error is skipped
silently. -/
theorem c2_fault_isolation_witness :
    storeItems createPost 1 [] [] [exampleItem 3 "yesterday"]
      = storeItems createPost 1 []
          ["couldn't parse date yesterday: couldn't parse date: yesterday"] []
    ∧ storeItems createPost 9 exampleDB [] [exampleItem 4 goodDate]
      = storeItems createPost 9 exampleDB [] [] :=
  ⟨c2_fault_isolation.2.1 createPost 1 [] [] (exampleItem 3 "yesterday") [] _ rfl,
   c2_fault_isolation.2.2.1 createPost 9 exampleDB [] (exampleItem 4 goodDate) []
     exampleTime _ rfl rfl rfl⟩

/-- C3: whenever the repository returns a next source, `scrapeFeeds`
advances the source's last-fetched watermark (`MarkFeedFetched`)
independently of the fetch outcome — in particular a fetch or parse
failure returns the fetch error with the watermark already updated and
no entries stored. -/
theorem c3_watermark_before_fetch (ins : InsertFn) (feed : Feed)
    (fr : Except String RSSFeed) (st : ScrapeState) :
    (scrapeFeeds ins ⟨.ok feed, .ok (), fr⟩ st).1.markedIDs
        = st.markedIDs ++ [feed.id]
    ∧ (∀ e, fr = .error e →
        (scrapeFeeds ins ⟨.ok feed, .ok (), fr⟩ st).2
            = .error ("couldn't fetch feed " ++ feed.name ++ ": " ++ e)
        ∧ (scrapeFeeds ins ⟨.ok feed, .ok (), fr⟩ st).1.posts = st.posts) := by
  cases fr with
  | error e =>
    refine ⟨by simp [scrapeFeeds], ?_⟩
    intro e' he
    have h : e = e' := by injection he
    subst h
    exact ⟨by simp [scrapeFeeds], by simp [scrapeFeeds]⟩
  | ok rss =>
    refine ⟨by simp [scrapeFeeds], ?_⟩
    intro e' he
    cases he

/-- C3 witness: with a failing fetch, the watermark is still advanced
and the fetch error is reported. -/
theorem c3_watermark_before_fetch_witness :
    (scrapeFeeds createPost ⟨.ok exampleFeed, .ok (), .error "boom"⟩ exampleState).2
        = .error ("couldn't fetch feed " ++ exampleFeed.name ++ ": " ++ "boom")
    ∧ (scrapeFeeds createPost ⟨.ok exampleFeed, .ok (), .error "boom"⟩
        exampleState).1.posts = exampleState.posts :=
  (c3_watermark_before_fetch createPost exampleFeed (.error "boom") exampleState).2
    "boom" rfl

/-- C4: the scheduler loop of `AggHandler` executes one ingestion cycle
immediately (the trace begins with cycle 0, before any tick wait), then
exactly one cycle per subsequent tick, forever: after `n` iterations the
trace holds `n` cycles and `n - 1` tick waits for every outcome
sequence, every iteration extends the trace by exactly one further
cycle, and a cycle's error is logged without terminating the loop. -/
theorem c4_scheduler_loop :
    (∀ (outcome : Nat → Except String Unit) (n : Nat),
        (aggTrace outcome (n + 1)).head? = some (AggEvent.scrape 0))
  ∧ (∀ (outcome : Nat → Except String Unit) (n : Nat),
        scrapeCount (aggTrace outcome n) = n
        ∧ tickCount (aggTrace outcome n) = n - 1)
  ∧ (∀ (outcome : Nat → Except String Unit) (n : Nat),
        ∃ evs, aggTrace outcome (n + 1) = aggTrace outcome n ++ evs
        ∧ scrapeCount evs = 1)
  ∧ (∀ (outcome : Nat → Except String Unit) (n : Nat) (e : String),
        outcome n = .error e →
        AggEvent.logError ("Error scraping feeds: " ++ e) ∈ aggTrace outcome (n + 1)) := by
  refine ⟨?_, ?_, ?_, ?_⟩
  · intro outcome n
    induction n with
    | zero => simp [aggTrace, aggCycle]
    | succ m ih =>
      have : aggTrace outcome (m + 2)
          = aggTrace outcome (m + 1)
            ++ ((if m + 1 = 0 then [] else [AggEvent.waitTick]) ++ aggCycle outcome (m + 1)) := by
        simp [aggTrace]
      rw [this]
      exact head?_append_of_head? _ _ _ ih
  · intro outcome n
    induction n with
    | zero => simp [aggTrace, scrapeCount, tickCount]
    | succ m ih =>
      obtain ⟨hs, ht⟩ := ih
      simp only [aggTrace, scrapeCount_append, tickCount_append, hs, ht,
        scrapeCount_aggCycle, tickCount_aggCycle]
      cases m with
      | zero => simp [scrapeCount, tickCount]
      | succ k =>
        simp only [Nat.succ_ne_zero, if_false]
        constructor
        · simp [scrapeCount]
        · simp [tickCount]
  · intro outcome n
    refine ⟨(if n = 0 then [] else [AggEvent.waitTick]) ++ aggCycle outcome n,
      by simp [aggTrace], ?_⟩
    rw [scrapeCount_append, scrapeCount_aggCycle]
    cases n with
    | zero => simp [scrapeCount]
    | succ k => simp [scrapeCount]
  · intro outcome n e h
    simp [aggTrace, aggCycle, h]

/-- C4 witness: a failing cycle's error is logged in the trace. -/
theorem c4_scheduler_loop_witness :
    AggEvent.logError ("Error scraping feeds: " ++ "net down")
      ∈ aggTrace failingOutcome 1 :=
  c4_scheduler_loop.2.2.2 failingOutcome 0 "net down" rfl

/-- C5: `parseDate` tries a fixed ordered layout list and returns the
first layout that parses the input; it errors exactly when every layout
fails.  The RFC1123Z-style, ISO-8601-with-offset, and space-separated
layouts each yield the correct absolute timestamp, and the unrecognized
string "yesterday" yields the date error. -/
theorem c5_date_normalizer :
    (∀ (s : String) (t : ParsedTime),
        parseDate s = .ok t ↔ formats.findSome? (fun f => goTimeParse f s) = some t)
  ∧ (∀ s : String, (∃ e, parseDate s = .error e)
        ↔ formats.all (fun f => (goTimeParse f s).isNone) = true)
  ∧ parseDate "Mon, 02 Jan 2006 15:04:05 -0700" = .ok ⟨2006, 1, 2, 15, 4, 5, -25200⟩
  ∧ ParsedTime.toUnix ⟨2006, 1, 2, 15, 4, 5, -25200⟩ = 1136239445
  ∧ parseDate "2006-01-02T15:04:05+07:00" = .ok ⟨2006, 1, 2, 15, 4, 5, 25200⟩
  ∧ ParsedTime.toUnix ⟨2006, 1, 2, 15, 4, 5, 25200⟩ = 1136189045
  ∧ parseDate "2006-01-02 15:04:05" = .ok ⟨2006, 1, 2, 15, 4, 5, 0⟩
  ∧ ParsedTime.toUnix ⟨2006, 1, 2, 15, 4, 5, 0⟩ = 1136214245
  ∧ parseDate "yesterday" = .error "couldn't parse date: yesterday" :=
  ⟨fun s t => parseDateAux_ok_iff s t formats,
   fun s => parseDateAux_error_iff s formats,
   rfl, rfl, rfl, rfl, rfl, rfl, rfl⟩

/-- C6 counterexample: the claim asserts the fetch runs under a bounded
timeout budget, but `fetchFeed` uses a zero-valued `http.Client` (no
timeout) and `scrapeFeeds` passes `context.Background()` (no deadline),
so the concrete client/context pair used has no bounded timeout. -/
theorem c6_no_bounded_timeout :
    ¬ hasBoundedTimeout fetchFeedClient scrapeFetchContext := by
  decide

/-- C6 (amended): for every source URL, `fetchFeed` issues exactly one
HTTP GET carrying the identifying `User-Agent: gator` header, but it
runs with no bounded timeout: the client's timeout is zero (Go: no
timeout) and the context carries no deadline. -/
theorem c6_fetcher_amended (ctx : GoContext) (u : String) :
    fetchFeedRequests ctx u
      = [({ method := "GET", url := u, headers := [("User-Agent", "gator")] },
          fetchFeedClient, ctx)]
    ∧ (fetchFeedRequests ctx u).length = 1
    ∧ fetchFeedClient.timeoutNanos = 0
    ∧ scrapeFetchContext.deadline = none
    ∧ ¬ hasBoundedTimeout fetchFeedClient scrapeFetchContext :=
  ⟨rfl, rfl, rfl, rfl, by decide⟩

/-- C7: each ingestion pass preserves the store invariant that no two
stored entries share a link URL (insertions whose link already exists
are rejected as duplicates), and it never updates or deletes entries —
the resulting store is the old store plus appended new rows. -/
theorem c7_link_unique_invariant (env : ScrapeEnv) (st : ScrapeState)
    (h : urlsNodupB st.posts = true) :
    (∃ new, (scrapeFeeds createPost env st).1.posts = st.posts ++ new)
    ∧ urlsNodupB (scrapeFeeds createPost env st).1.posts = true := by
  rcases env with ⟨nf, mr, fr⟩
  cases nf with
  | error e => exact ⟨⟨[], by simp [scrapeFeeds]⟩, by simpa [scrapeFeeds] using h⟩
  | ok feed =>
    cases mr with
    | error e => exact ⟨⟨[], by simp [scrapeFeeds]⟩, by simpa [scrapeFeeds] using h⟩
    | ok u =>
      cases fr with
      | error e => exact ⟨⟨[], by simp [scrapeFeeds]⟩, by simpa [scrapeFeeds] using h⟩
      | ok rss =>
        constructor
        · simpa [scrapeFeeds] using
            storeItems_append_only feed.id rss.channel.item st.posts _
        · simpa [scrapeFeeds] using
            storeItems_nodup feed.id rss.channel.item st.posts _ h

/-- C7 witness: the invariant is preserved on the concrete example
store and document. -/
theorem c7_link_unique_invariant_witness :
    (∃ new, (scrapeFeeds createPost ⟨.ok exampleFeed, .ok (), .ok exampleRss⟩
        exampleState).1.posts = exampleState.posts ++ new)
    ∧ urlsNodupB (scrapeFeeds createPost ⟨.ok exampleFeed, .ok (), .ok exampleRss⟩
        exampleState).1.posts = true :=
  c7_link_unique_invariant ⟨.ok exampleFeed, .ok (), .ok exampleRss⟩ exampleState
    (by decide)

/-- C8: the parser's entity-decoding pass decodes HTML character
entities in the channel title, the channel description, and each item's
title and description (leaving item links untouched), so the document
handed downstream holds plain text in those fields. -/
theorem c8_entities_decoded :
    (∀ f : RSSFeed,
        (unescapeFeed f).channel.title = htmlUnescape f.channel.title
      ∧ (unescapeFeed f).channel.description = htmlUnescape f.channel.description
      ∧ ∀ i : Nat,
          (unescapeFeed f).channel.item[i]?.map RSSItem.title
              = f.channel.item[i]?.map (fun it => htmlUnescape it.title)
          ∧ (unescapeFeed f).channel.item[i]?.map RSSItem.description
              = f.channel.item[i]?.map (fun it => htmlUnescape it.description)
          ∧ (unescapeFeed f).channel.item[i]?.map RSSItem.link
              = f.channel.item[i]?.map RSSItem.link)
  ∧ htmlUnescape "Tom &amp; Jerry &lt;b&gt;&quot;cats&quot;&lt;/b&gt;"
      = "Tom & Jerry <b>\"cats\"</b>"
  ∧ htmlUnescape "&apos;" = String.mk [Char.ofNat 39] := by
  refine ⟨?_, rfl, rfl⟩
  intro f
  refine ⟨rfl, rfl, fun i => ⟨?_, ?_, ?_⟩⟩ <;>
    cases h : f.channel.item[i]? <;> simp [unescapeFeed, h]

/-- C9: duplicate classification during ingestion is by error-message
text: an insertion error whose message contains the duplicate-key
substring is skipped silently (store and log unchanged, processing
continues), while any other insertion error is logged before
continuing; a uniqueness violation on a column other than the link URL
is likewise silently skipped. -/
theorem c9_dup_by_message_text :
    (∀ (ins : InsertFn) (fid : Nat) (db : List Post) (log : List String)
        (item : RSSItem) (rest : List RSSItem) (t : ParsedTime) (e : String),
        parseDate item.pubDate = .ok t →
        ins db (mkPost fid item t) = .error e →
        (goContains e dupKeyMsg = true →
            storeItems ins fid db log (item :: rest) = storeItems ins fid db log rest)
        ∧ (goContains e dupKeyMsg = false →
            storeItems ins fid db log (item :: rest)
              = storeItems ins fid db (log ++ ["couldn't create post: " ++ e]) rest))
  ∧ goContains "pq: duplicate key value violates unique constraint (posts pkey)"
      dupKeyMsg = true
  ∧ goContains "pq: connection refused" dupKeyMsg = false := by
  refine ⟨?_, rfl, rfl⟩
  intro ins fid db log item rest t e hok hins
  constructor
  · intro hdup
    simp only [storeItems, hok, hins, hdup, if_true]
  · intro hdup
    simp only [storeItems, hok, hins, hdup, Bool.false_eq_true, if_false]

/-- C9 witness: a uniqueness violation on the primary-key column is
silently skipped; a connection error is logged. -/
theorem c9_dup_by_message_text_witness :
    storeItems
        (failIns "pq: duplicate key value violates unique constraint (posts pkey)")
        1 [] [] [exampleItem 1 goodDate]
      = storeItems
        (failIns "pq: duplicate key value violates unique constraint (posts pkey)")
        1 [] [] []
    ∧ storeItems (failIns "pq: connection refused") 1 [] [] [exampleItem 1 goodDate]
      = storeItems (failIns "pq: connection refused") 1 []
          ["couldn't create post: " ++ "pq: connection refused"] [] :=
  ⟨(c9_dup_by_message_text.1
      (failIns "pq: duplicate key value violates unique constraint (posts pkey)")
      1 [] [] (exampleItem 1 goodDate) [] exampleTime _ rfl rfl).1 rfl,
   (c9_dup_by_message_text.1 (failIns "pq: connection refused")
      1 [] [] (exampleItem 1 goodDate) [] exampleTime _ rfl rfl).2 rfl⟩

/-- C10: for every ingested item, the stored description is null
(invalid) exactly when the parsed item's description is the empty
string, and its text is the item's description unchanged. -/
theorem c10_null_description (fid : Nat) (item : RSSItem) (t : ParsedTime) :
    ((mkPost fid item t).description.valid = false ↔ item.description = "")
    ∧ (mkPost fid item t).description.string = item.description := by
  refine ⟨?_, rfl⟩
  simp [mkPost, bne]

end Gator
